import Mathlib

/-!
# A shallow embedding of `route_generator.py`

This file embeds the extraction-and-matching pipeline of the repository
(`src/route_generator.py`) as executable Lean definitions and proves the
specification claims about it.

Modelling conventions:

* Python strings are `String`; Python lists are `List`.
* A pandas `DataFrame` is modelled by its column names, a per-column
  "dtype is object" flag (as pandas infers it while reading the CSV), and its
  rows of cells already rendered as strings (the pipeline only ever reads
  cells through `.astype(str)`, so the string rendering is the interface).
* The similarity scorers `city_match` / `name_match` wrap the external
  `rapidfuzz` library (`fuzz.WRatio`, `fuzz.token_set_ratio`).  They are kept
  as explicit function parameters `cm nm : String → String → Nat` of the
  matcher: scores are integers on the 0–100 scale, exactly the granularity at
  which the source compares them against the integer thresholds.
* Fallible code (`PdfReader`, the missing-column `ValueError` of
  `process_route`) returns `Except String _`.
* The concrete regular expressions of the source are implemented directly as
  scanners over `List Char`, following the Python `re` semantics of each
  pattern (documented at each definition).
-/

namespace RouteGen

/-! ## Python character/string primitives -/

/-- Python `\s` / `str.strip()` whitespace (the ASCII part used by the data). -/
def pyIsSpace (c : Char) : Bool :=
  c = ' ' || c = '\t' || c = '\n' || c = '\r' || c = '\x0b' || c = '\x0c'

/-- ASCII digit, Python `\d` on the inputs in scope. -/
def pyIsDigit (c : Char) : Bool := '0' ≤ c && c ≤ '9'

def isAsciiUpper (c : Char) : Bool := 'A' ≤ c && c ≤ 'Z'

def isAsciiLower (c : Char) : Bool := 'a' ≤ c && c ≤ 'z'

/-- Python `str.lower` restricted to the character repertoire this program
manipulates: ASCII letters, the Cyrillic block `А`–`Я` and `Ё`, and the
accented Latin letters occurring in the source's literals.  Other characters
are fixed points. -/
def pyLowerChar (c : Char) : Char :=
  if isAsciiUpper c then Char.ofNat (c.toNat + 32)
  else if 'А' ≤ c && c ≤ 'Я' then Char.ofNat (c.toNat + 32)
  else if c = 'Ё' then 'ё'
  else if c = 'Å' then 'å' else if c = 'Ä' then 'ä' else if c = 'Ö' then 'ö'
  else if c = 'É' then 'é' else if c = 'Ó' then 'ó' else if c = 'Á' then 'á'
  else if c = 'Í' then 'í' else if c = 'Ú' then 'ú' else if c = 'Ł' then 'ł'
  else if c = 'Ś' then 'ś' else if c = 'Ż' then 'ż' else if c = 'Ź' then 'ź'
  else if c = 'Ć' then 'ć' else if c = 'Ń' then 'ń' else if c = 'Ü' then 'ü'
  else if c = 'Õ' then 'õ' else if c = 'Æ' then 'æ' else if c = 'Ø' then 'ø'
  else c

/-- Python `str.upper` on the same repertoire (inverse direction). -/
def pyUpperChar (c : Char) : Char :=
  if isAsciiLower c then Char.ofNat (c.toNat - 32)
  else if 'а' ≤ c && c ≤ 'я' then Char.ofNat (c.toNat - 32)
  else if c = 'ё' then 'Ё'
  else if c = 'å' then 'Å' else if c = 'ä' then 'Ä' else if c = 'ö' then 'Ö'
  else if c = 'é' then 'É' else if c = 'ó' then 'Ó' else if c = 'á' then 'Á'
  else if c = 'í' then 'Í' else if c = 'ú' then 'Ú' else if c = 'ł' then 'Ł'
  else if c = 'ś' then 'Ś' else if c = 'ż' then 'Ż' else if c = 'ź' then 'Ź'
  else if c = 'ć' then 'Ć' else if c = 'ń' then 'Ń' else if c = 'ü' then 'Ü'
  else if c = 'õ' then 'Õ' else if c = 'æ' then 'Æ' else if c = 'ø' then 'Ø'
  else c

def pyLowerStr (s : String) : String := String.mk (s.data.map pyLowerChar)

def pyUpperStr (s : String) : String := String.mk (s.data.map pyUpperChar)

/-- Strip characters satisfying `p` from both ends of a char list. -/
def stripWhile (p : Char → Bool) (l : List Char) : List Char :=
  ((l.dropWhile p).reverse.dropWhile p).reverse

/-- Python `str.strip()` (no argument): strip whitespace from both ends. -/
def pyStripWs (s : String) : String := String.mk (stripWhile pyIsSpace s.data)

/-- Python `str.strip(chars)`: strip any of the given characters from both
ends. -/
def pyStripSet (set : List Char) (s : String) : String :=
  String.mk (stripWhile (fun c => set.contains c) s.data)

/-- Split a character list at every occurrence of `sep` (the behaviour of
Python `str.split(sep)` / `re.split` on a single character: `""` yields
`[""]`, separators at the ends yield empty parts). -/
def splitOnChar (sep : Char) : List Char → List (List Char)
  | [] => [[]]
  | c :: cs =>
    match splitOnChar sep cs with
    | [] => [[]]
    | r :: rs => if c = sep then [] :: r :: rs else (c :: r) :: rs

/-- Python `sep.join(xs)`. -/
def joinStr (sep : String) (xs : List String) : String :=
  String.mk (List.intercalate sep.data (xs.map String.data))

/-! ## Configuration constants (`route_generator.py` lines 11–26) -/

def NAME_FUZZ : Nat := 80
def NAME_FUZZ_WITH_CITY : Nat := 74
def CITY_FUZZ : Nat := 86
def CITY_UPPER_HINT : Bool := true

def KNOWN_CITIES : List String :=
  ["TURKU", "KAARINA", "RAISIO", "NAANTALI", "PIISPANRISTI"]

def ADDRESS_CANDIDATES : List String :=
  ["address", "адрес", "адреса", "addr", "street", "улица", "улиц",
   "stop address", "location", "address1", "address_line", "address_line1", "addr1"]

def NAME_CANDIDATES : List String :=
  ["name", "название", "наименование", "company", "firma", "client", "recipient",
   "odbiorca", "shop", "customer", "nazwa", "nazwa odbiorcy", "получатель"]

def CITY_CANDIDATES : List String := ["city", "город", "miasto"]

/-! ## Line classification (`is_city_token`, `looks_like_noise`, header filter) -/

/-- The character class `[A-Za-zÅÄÖåäöÉÓÁÍÚŁŚŻŹĆŃÄÖÜÕÄÅÆØÄ-]` of
`is_city_token` (duplicates in the literal removed; the trailing `-` is a
literal hyphen). -/
def cityClassChar (c : Char) : Bool :=
  isAsciiUpper c || isAsciiLower c || "ÅÄÖåäöÉÓÁÍÚŁŚŻŹĆŃÜÕÆØ-".data.contains c

/-- `is_city_token`: substitute every character outside the class by a space,
strip, then test all-uppercase-with-a-letter, falling back to the known-city
set.  `any(c.isalpha() ...)` is exact on the reachable alphabet: the cleaned
string only contains class characters and spaces, of which the letters are
the class characters other than `-`. -/
def is_city_token (s : String) : Bool :=
  let sClean := pyStripWs (String.mk (s.data.map (fun c => if cityClassChar c then c else ' ')))
  if sClean == "" then false
  else if CITY_UPPER_HINT && pyUpperStr sClean == sClean
          && sClean.data.any (fun c => cityClassChar c && !(c == '-')) then true
  else KNOWN_CITIES.contains (pyUpperStr sClean)

/-- Python `\w` on the repertoire in scope (ASCII alphanumerics, underscore,
the accented Latin letters of the source literals, and Cyrillic letters). -/
def isWordChar (c : Char) : Bool :=
  isAsciiUpper c || isAsciiLower c || pyIsDigit c || c = '_' ||
  "ÅÄÖåäöÉÓÁÍÚŁŚŻŹĆŃÜÕÆØéóáíúłśżźćńüõæø".data.contains c ||
  ('А' ≤ c && c ≤ 'я') || c = 'Ё' || c = 'ё'

/-- `\s*\w` (maximal whitespace run, then a word character; no shorter run can
succeed because whitespace is never a word character). -/
def noiseWsWord (r : List Char) : Bool :=
  match r.dropWhile pyIsSpace with
  | c :: _ => isWordChar c
  | [] => false

/-- `_?\s*\w` with both options of the optional underscore. -/
def noiseUnderscoreTail (r : List Char) : Bool :=
  (match r with
   | '_' :: r2 => noiseWsWord r2
   | _ => false) || noiseWsWord r

/-- The first `looks_like_noise` alternative `\d\s*[/.-]_?\s*\w` anchored at
the head of the list. -/
def noise1At : List Char → Bool
  | d :: rest =>
    pyIsDigit d &&
      (match rest.dropWhile pyIsSpace with
       | c :: r2 => (c = '/' || c = '.' || c = '-') && noiseUnderscoreTail r2
       | [] => false)
  | [] => false

/-- The second alternative `\d{2,}[A-Z]+` anchored at the head: a maximal
digit run of length ≥ 2 immediately followed by an ASCII capital (shorter
runs end on a digit, which is not `[A-Z]`, so the maximal run is the only
candidate). -/
def noise2At (l : List Char) : Bool :=
  2 ≤ (l.takeWhile pyIsDigit).length &&
    (match l.dropWhile pyIsDigit with
     | c :: _ => isAsciiUpper c
     | [] => false)

/-- Character class of the anchored third alternative `^[A-Z0-9/_ -]{6,}$`. -/
def noise3Class (c : Char) : Bool :=
  isAsciiUpper c || pyIsDigit c || c = '/' || c = '_' || c = ' ' || c = '-'

/-- `^[A-Z0-9/_ -]{6,}$`: the whole line is made of class characters and has
length at least 6 (the input lines are stripped, so `$` is end-of-string). -/
def noise3 (s : String) : Bool := 6 ≤ s.length && s.data.all noise3Class

/-- Character class of the `re.fullmatch` pattern of `looks_like_noise`:
`P`, digits, space, comma, semicolon, slash, hyphen. -/
def noise4Class (c : Char) : Bool :=
  c = 'P' || pyIsDigit c || c = ' ' || c = ',' || c = ';' || c = '/' || c = '-'

/-- `looks_like_noise` (`route_generator.py` lines 54–61). -/
def looks_like_noise (s : String) : Bool :=
  (s.data.tails.any (fun t => noise1At t || noise2At t) || noise3 s) ||
  (!s.data.isEmpty && s.data.all noise4Class)

/-- The boilerplate alternatives of the anchored header regex
(`route_generator.py` line 84). -/
def HEADER_PREFIXES : List String :=
  ["List transportowy", "Magazyn/Skład", "Suma paczek", "Numer", "paczki",
   "spedycji", "Nazwa odbiorcy", "Miasto", "Numery paczek", "Waga",
   "Ilość paczek", "Arkusz/List"]

/-- `re.search(r"^(...)", line, re.IGNORECASE)`: the line starts with one of
the boilerplate alternatives, case-insensitively. -/
def is_header_line (s : String) : Bool :=
  HEADER_PREFIXES.any (fun k => (pyLowerStr k).data.isPrefixOf (pyLowerStr s).data)

/-! ## `squash_name` (`route_generator.py` lines 64–72) -/

/-- The state walk behind `re.sub(r"\s{2,}", " ", s)`: the flag records
being inside a whitespace run whose single replacement space has already been
emitted (further whitespace of the run is dropped). -/
def collapseRunsAux : Bool → List Char → List Char
  | _, [] => []
  | true, c :: cs =>
    if pyIsSpace c then collapseRunsAux true cs
    else c :: collapseRunsAux false cs
  | false, c :: cs =>
    if pyIsSpace c then
      match cs with
      | [] => [c]
      | c2 :: _ =>
        if pyIsSpace c2 then ' ' :: collapseRunsAux true cs
        else c :: collapseRunsAux false cs
    else c :: collapseRunsAux false cs

/-- `re.sub(r"\s{2,}", " ", s)`: every whitespace run of length at least two
becomes a single space; isolated whitespace characters stay as they are. -/
def collapseRuns (l : List Char) : List Char := collapseRunsAux false l

/-- The state walk behind `re.sub(r"\s+", " ", s)`: the flag records being
inside a whitespace run whose replacement space has been emitted. -/
def collapseWsAux : Bool → List Char → List Char
  | _, [] => []
  | true, c :: cs =>
    if pyIsSpace c then collapseWsAux true cs
    else c :: collapseWsAux false cs
  | false, c :: cs =>
    if pyIsSpace c then ' ' :: collapseWsAux true cs
    else c :: collapseWsAux false cs

/-- `re.sub(r"\s+", " ", s)` (used by the final normalisation pass of
`extract_name_city`): every whitespace run becomes a single space. -/
def collapseWsAll (l : List Char) : List Char := collapseWsAux false l

/-- Case-insensitive equality of char lists (Python `re.IGNORECASE`
backreference comparison, on the repertoire covered by `pyLowerChar`). -/
def ciEqList (a b : List Char) : Bool :=
  a.map pyLowerChar == b.map pyLowerChar

/-- Tail `\s*\1$` of the duplicate-name pattern after the `-`: some prefix of
whitespace may be consumed before the backreference, and because the capture
may itself begin with whitespace each possible split has to be tried. -/
def dedupeTail (p : List Char) : List Char → Bool
  | [] => ciEqList [] p
  | c :: rest => ciEqList (c :: rest) p || (pyIsSpace c && dedupeTail p rest)

/-- Tail `\s*-\s*\1$` of the duplicate-name pattern after the captured
prefix `p`.  The first `\s*` is forced to the maximal run (a shorter run
would leave a whitespace character where `-` is required). -/
def dedupeDash (p : List Char) (r : List Char) : Bool :=
  match r.dropWhile pyIsSpace with
  | '-' :: r2 => dedupeTail p r2
  | _ => false

/-- `re.sub(r"^(.*)\s*-\s*\1$", r"\1", s, flags=IGNORECASE)`: if the whole
string matches, it is replaced by the captured prefix; the greedy `(.*)`
tries the longest prefix first and cannot contain a newline.  (The inputs
reaching this point are joined stripped lines, so `$` is end-of-string.) -/
def squashDedupe (s : List Char) : List Char :=
  match (List.range (s.length + 1)).reverse.findSome? (fun k =>
      let p := s.take k
      if (!p.contains '\n') && dedupeDash p (s.drop k) then some p else none) with
  | some p => p
  | none => s

/-- `squash_name` (`route_generator.py` lines 64–72).  `re.split(r"\s*/\s*", s)`
splits the string at every `/`, consuming adjacent whitespace; since every
part is then `.strip()`-ed anyway, splitting at `/` and stripping the parts
produces the identical list. -/
def squash_name (s : String) : String :=
  let s1 := String.mk (collapseRuns s.data)
  let s2 := String.mk (squashDedupe s1.data)
  let parts := (((splitOnChar '/' s2.data).map String.mk).map pyStripWs).filter
    (fun p => !(p == ""))
  let s3 := match parts with
    | [] => s2
    | p :: _ => p
  pyStripSet [',', '.', ' '] s3

/-! ## The name+city walk (`extract_name_city`, lines 75–116) -/

/-- An extracted stop candidate: the dict `{"key": ..., "name": ..., "city": ...}`. -/
structure Item where
  key : String
  name : String
  city : String
deriving Repr, DecidableEq

/-- `{"key": f"{name}, {city}", "name": name, "city": city}`. -/
def mkItem (name city : String) : Item := ⟨name ++ ", " ++ city, name, city⟩

/-- The `while` loop of `extract_name_city`: the second argument is the
suffix of the line list starting at the cursor `i`, the third is `buf_name`.
Every iteration advances the cursor by at least one line while consuming one
unit of fuel, so `lines.length` units (as supplied by `nameCityWalk`) are
exactly enough — `nameCityWalkFuel_irrel` below shows the result does not
depend on the fuel once it covers the list length. -/
def nameCityWalkFuel : Nat → List String → List String → List Item
  | 0, _, _ => []
  | _ + 1, [], _ => []
  | fuel + 1, line :: rest, buf =>
    if looks_like_noise line then nameCityWalkFuel fuel rest buf
    else if is_header_line line then nameCityWalkFuel fuel rest buf
    else if !(is_city_token line) then
      let buf' := buf ++ [line]
      match rest with
      | [] => nameCityWalkFuel fuel [] buf'
      | l1 :: rest1 =>
        if is_city_token l1 then
          mkItem (squash_name (joinStr " " buf')) (pyStripWs l1) ::
            nameCityWalkFuel fuel rest1 []
        else
          match rest1 with
          | [] => nameCityWalkFuel fuel (l1 :: rest1) buf'
          | l2 :: rest2 =>
            if is_city_token l2 then
              mkItem (squash_name (line ++ " " ++ l1)) (pyStripWs l2) ::
                nameCityWalkFuel fuel rest2 []
            else nameCityWalkFuel fuel (l1 :: l2 :: rest2) buf'
    else nameCityWalkFuel fuel rest buf

def nameCityWalk (lines : List String) (buf : List String) : List Item :=
  nameCityWalkFuel lines.length lines buf

theorem nameCityWalkFuel_nil (fuel : Nat) (buf : List String) :
    nameCityWalkFuel fuel [] buf = [] := by
  cases fuel <;> rfl

/-- The fuel of `nameCityWalkFuel` is irrelevant as long as it covers the
length of the line list. -/
theorem nameCityWalkFuel_irrel :
    ∀ (n fuel fuel' : Nat) (lines buf : List String), lines.length = n →
      n ≤ fuel → n ≤ fuel' →
      nameCityWalkFuel fuel lines buf = nameCityWalkFuel fuel' lines buf := by
  intro n
  induction n using Nat.strong_induction_on with
  | _ n ih =>
    intro fuel fuel' lines buf hlen hf hf'
    match lines, fuel, fuel' with
    | [], fuel, fuel' => rw [nameCityWalkFuel_nil, nameCityWalkFuel_nil]
    | line :: rest, 0, _ =>
      exfalso
      simp only [List.length_cons] at hlen
      omega
    | line :: rest, _ + 1, 0 =>
      exfalso
      simp only [List.length_cons] at hlen
      omega
    | [line], fuel + 1, fuel' + 1 =>
      have hIH : ∀ b, nameCityWalkFuel fuel [] b = nameCityWalkFuel fuel' [] b := by
        intro b
        rw [nameCityWalkFuel_nil, nameCityWalkFuel_nil]
      simp only [nameCityWalkFuel, hIH]
    | [line, l1], fuel + 1, fuel' + 1 =>
      have h1 : ([l1] : List String).length = n - 1 := by
        simp only [List.length_cons] at hlen ⊢
        omega
      have hn1 : n - 1 < n := by
        simp only [List.length_cons] at hlen
        omega
      have hIH1 : ∀ b, nameCityWalkFuel fuel [l1] b = nameCityWalkFuel fuel' [l1] b :=
        fun b => ih (n - 1) hn1 fuel fuel' [l1] b h1
          (by simp only [List.length_cons] at hlen; omega)
          (by simp only [List.length_cons] at hlen; omega)
      have hIH0 : ∀ b, nameCityWalkFuel fuel [] b = nameCityWalkFuel fuel' [] b := by
        intro b
        rw [nameCityWalkFuel_nil, nameCityWalkFuel_nil]
      simp only [nameCityWalkFuel, hIH1, hIH0]
    | line :: l1 :: l2 :: rest2, fuel + 1, fuel' + 1 =>
      have hlen3 : rest2.length + 3 = n := by
        simp only [List.length_cons] at hlen
        omega
      have hIH1 : ∀ b, nameCityWalkFuel fuel (l1 :: l2 :: rest2) b =
          nameCityWalkFuel fuel' (l1 :: l2 :: rest2) b :=
        fun b => ih (n - 1) (by omega) fuel fuel' (l1 :: l2 :: rest2) b
          (by simp only [List.length_cons]; omega) (by omega) (by omega)
      have hIH2 : ∀ b, nameCityWalkFuel fuel (l2 :: rest2) b =
          nameCityWalkFuel fuel' (l2 :: rest2) b :=
        fun b => ih (n - 2) (by omega) fuel fuel' (l2 :: rest2) b
          (by simp only [List.length_cons]; omega) (by omega) (by omega)
      have hIH3 : ∀ b, nameCityWalkFuel fuel rest2 b = nameCityWalkFuel fuel' rest2 b :=
        fun b => ih (n - 3) (by omega) fuel fuel' rest2 b
          (by omega) (by omega) (by omega)
      simp only [nameCityWalkFuel, hIH1, hIH2, hIH3]

/-! ## The fallback address pattern `ADDR_RE` (line 29)

The source compiles the pattern from a *raw* string in which every backslash
is doubled:

  `r"\\b(ul\\.|ulica|street|st\\.|ave\\.|avenue|road|rd\\.|blvd\\.|lane|ln\\.|pr\\.|prospekt|sh\\.|szosa|per\\.|pereulok|bulwar|plac)\\s+[^\\n,]+?"`

so the regex engine sees `\\` (an escaped literal backslash) wherever the
author intended a metacharacter: the pattern is

  literal `\`, letter `b`, one of the street-type alternatives (where the
  one-character street abbreviations end in a literal `\` followed by `.`,
  i.e. any character except newline), a literal `\`, one or more letters `s`,
  and one final character outside the class containing backslash, `n`, and
  comma — everything case-insensitively.

Every match therefore begins with a literal backslash character. -/

/-- Consume a case-insensitive literal. -/
def eatCI : List Char → List Char → Option (List Char)
  | [], r => some r
  | c :: cs, r =>
    match r with
    | x :: xs => if pyLowerChar x = pyLowerChar c then eatCI cs xs else none
    | [] => none

/-- Consume a case-insensitive literal, then a literal backslash, then any
one character except newline (the `.` left unescaped after the doubled
backslash, e.g. in `ul\\.`). -/
def eatLitBackslashDot (lit : String) (r : List Char) : Option (List Char) :=
  (eatCI lit.data r).bind fun r1 =>
    match r1 with
    | '\\' :: c :: r2 => if c ≠ '\n' then some r2 else none
    | _ => none

/-- The remainders after each alternative of the street-type group, in the
order the alternation tries them. -/
def addrAltRests (r : List Char) : List (List Char) :=
  [eatLitBackslashDot "ul" r, eatCI "ulica".data r, eatCI "street".data r,
   eatLitBackslashDot "st" r, eatLitBackslashDot "ave" r, eatCI "avenue".data r,
   eatCI "road".data r, eatLitBackslashDot "rd" r, eatLitBackslashDot "blvd" r,
   eatCI "lane".data r, eatLitBackslashDot "ln" r, eatLitBackslashDot "pr" r,
   eatCI "prospekt".data r, eatLitBackslashDot "sh" r, eatCI "szosa".data r,
   eatLitBackslashDot "per" r, eatCI "pereulok".data r, eatCI "bulwar".data r,
   eatCI "plac".data r].filterMap id

/-- The final character class: everything except backslash, `n`/`N`
(case-insensitive) and comma. -/
def addrLastOk (c : Char) : Bool := !(c = '\\' || c = 'n' || c = 'N' || c = ',')

/-- The pattern tail `\\s+[^\\n,]+?` seen by the engine: a literal backslash,
a maximal run of at least one `s`/`S`, then exactly one class character (the
lazy `+?` at the end of the pattern).  If the character after the run is not
in the class the greedy run backtracks by one and the final `s` of the run
serves as the class character (an `s` is always in the class). -/
def addrAfterGroup : List Char → Option (List Char)
  | '\\' :: r1 =>
    let run := r1.takeWhile (fun c => c = 's' || c = 'S')
    let rest := r1.dropWhile (fun c => c = 's' || c = 'S')
    if run.length = 0 then none
    else
      match rest with
      | c :: rest2 => if addrLastOk c then some rest2
                      else if 2 ≤ run.length then some rest else none
      | [] => if 2 ≤ run.length then some rest else none
  | _ => none

/-- Attempt an `ADDR_RE` match anchored at the head of the list, returning
the remainder after the match.  Alternatives are tried in order and the first
one whose continuation also matches wins. -/
def addrMatchAt : List Char → Option (List Char)
  | '\\' :: c :: r =>
    if c = 'b' || c = 'B' then (addrAltRests r).findSome? addrAfterGroup
    else none
  | _ => none

theorem length_eatCI_le : ∀ cs r r', eatCI cs r = some r' → r'.length ≤ r.length := by
  intro cs
  induction cs with
  | nil => intro r r' h; simp [eatCI] at h; simp [h]
  | cons c cs ih =>
    intro r r' h
    match r with
    | [] => simp [eatCI] at h
    | x :: xs =>
      simp only [eatCI] at h
      split at h
      · exact le_trans (ih xs r' h) (Nat.le_succ _)
      · exact absurd h (by simp)

theorem length_eatLitBackslashDot_le (lit : String) (r r' : List Char)
    (h : eatLitBackslashDot lit r = some r') : r'.length ≤ r.length := by
  unfold eatLitBackslashDot at h
  match h1 : eatCI lit.data r with
  | none => rw [h1] at h; simp at h
  | some r1 =>
    rw [h1] at h
    have hle := length_eatCI_le lit.data r r1 h1
    simp only [Option.some_bind] at h
    split at h
    · rename_i c r2
      split at h
      · simp only [Option.some.injEq] at h; subst h
        simp only [List.length_cons] at hle
        omega
      · simp at h
    · simp at h

theorem mem_addrAltRests_length_le (r r1 : List Char) (h : r1 ∈ addrAltRests r) :
    r1.length ≤ r.length := by
  unfold addrAltRests at h
  rw [List.mem_filterMap] at h
  obtain ⟨o, ho, hoeq⟩ := h
  fin_cases ho <;> simp_all <;>
    first
      | exact length_eatCI_le _ _ _ hoeq
      | exact length_eatLitBackslashDot_le _ _ _ hoeq

theorem length_addrAfterGroup_lt (r r' : List Char) (h : addrAfterGroup r = some r') :
    r'.length < r.length := by
  match r with
  | [] => simp [addrAfterGroup] at h
  | c0 :: r1 =>
    by_cases hc : c0 = '\\'
    · subst hc
      simp only [addrAfterGroup] at h
      have hsplit : (r1.takeWhile (fun c => c = 's' || c = 'S')).length +
          (r1.dropWhile (fun c => c = 's' || c = 'S')).length = r1.length := by
        rw [← List.length_append, List.takeWhile_append_dropWhile]
      split at h
      · simp at h
      · rename_i hrun
        split at h
        · rename_i c rest2 heq
          split at h
          · simp at h; subst h
            have : (r1.dropWhile (fun c => c = 's' || c = 'S')).length = rest2.length + 1 := by
              rw [heq]; simp
            simp only [List.length_cons]; omega
          · split at h
            · simp at h; subst h; simp only [List.length_cons]; omega
            · simp at h
        · split at h
          · simp at h; subst h; simp only [List.length_cons]; omega
          · simp at h
    · have : addrAfterGroup (c0 :: r1) = none := by
        rw [addrAfterGroup.eq_def]
        split <;> simp_all
      simp [this] at h

theorem length_addrMatchAt_lt (l r' : List Char) (h : addrMatchAt l = some r') :
    r'.length < l.length := by
  match l with
  | [] => simp [addrMatchAt] at h
  | [c] => simp [addrMatchAt] at h
  | c0 :: c1 :: r =>
    by_cases hc : c0 = '\\'
    · subst hc
      simp only [addrMatchAt] at h
      split at h
      · obtain ⟨r1, hr1, hag⟩ := List.exists_of_findSome?_eq_some h
        have h1 := mem_addrAltRests_length_le r r1 hr1
        have h2 := length_addrAfterGroup_lt r1 r' hag
        simp only [List.length_cons]; omega
      · simp at h
    · have : addrMatchAt (c0 :: c1 :: r) = none := by
        simp only [addrMatchAt.eq_def]
        split <;> simp_all
      simp [this] at h

/-- `ADDR_RE.finditer`: scan left to right, taking non-overlapping matches
and resuming after each match.  Every step shortens the list (on a match by
`length_addrMatchAt_lt`, otherwise by one) while consuming one unit of fuel,
so the `l.length` units supplied by `addrFindAll` are exactly enough —
`addrFindAllFuel_irrel` below shows the result does not depend on the fuel
once it covers the list length. -/
def addrFindAllFuel : Nat → List Char → List (List Char)
  | 0, _ => []
  | _ + 1, [] => []
  | fuel + 1, c :: cs =>
    match addrMatchAt (c :: cs) with
    | some rest => (c :: cs).take ((c :: cs).length - rest.length) ::
        addrFindAllFuel fuel rest
    | none => addrFindAllFuel fuel cs

def addrFindAll (l : List Char) : List (List Char) := addrFindAllFuel l.length l

/-- The fuel of `addrFindAllFuel` is irrelevant as long as it covers the
length of the list. -/
theorem addrFindAllFuel_irrel :
    ∀ (n fuel fuel' : Nat) (l : List Char), l.length = n →
      n ≤ fuel → n ≤ fuel' →
      addrFindAllFuel fuel l = addrFindAllFuel fuel' l := by
  intro n
  induction n using Nat.strong_induction_on with
  | _ n ih =>
    intro fuel fuel' l hlen hf hf'
    match l, fuel, fuel' with
    | [], 0, 0 => rfl
    | [], 0, _ + 1 => rfl
    | [], _ + 1, 0 => rfl
    | [], _ + 1, _ + 1 => rfl
    | c :: cs, fuel + 1, fuel' + 1 =>
      cases hm : addrMatchAt (c :: cs) with
      | some rest =>
        have hlt := length_addrMatchAt_lt (c :: cs) rest hm
        have hIH := ih rest.length (by omega) fuel fuel' rest rfl (by omega) (by omega)
        simp only [addrFindAllFuel, hm, hIH]
      | none =>
        have hcs : cs.length = n - 1 := by
          simp only [List.length_cons] at hlen
          omega
        have hIH := ih (n - 1) (by simp only [List.length_cons] at hlen; omega)
          fuel fuel' cs hcs (by omega) (by omega)
        simp only [addrFindAllFuel, hm, hIH]

/-! ## `extract_name_city` (lines 75–116) -/

/-- Final normalisation of `key` and `name`:
`re.sub(r"\s+", " ", x).strip(",. ")`. -/
def normField (s : String) : String :=
  pyStripSet [',', '.', ' '] (String.mk (collapseWsAll s.data))

/-- `extract_name_city`: the name+city walk; if it produced nothing, the
`ADDR_RE` pass over the newline-joined text; then the normalisation pass. -/
def extract_name_city (lines : List String) : List Item :=
  let walk := nameCityWalk lines []
  let results :=
    if walk.isEmpty then
      (addrFindAll (joinStr "\n" lines).data).map (fun m =>
        let a := pyStripWs (String.mk m)
        Item.mk a a "")
    else walk
  results.map (fun r =>
    ⟨normField r.key, normField r.name, pyStripSet [',', '.', ' '] r.city⟩)

/-! ## The reference table and `detect_col` (lines 120–155)

A pandas `DataFrame` as the pipeline observes it: ordered column names, the
per-column "dtype is object" flag pandas inferred while reading the CSV, and
the rows with each cell rendered as a string (every read in the source goes
through `.astype(str)`, which also eliminates `NaN`, so the subsequent
`.fillna("")` and `.dropna()` are no-ops). -/
structure DataFrame where
  columns : List String
  dtypesObject : List Bool
  rows : List (List String)
deriving Repr, DecidableEq

/-- `_norm_name`: `re.sub(r"[^a-zа-я0-9]", "", str(name).lower())` — lower
the string, keep only ASCII lowercase letters, Cyrillic `а`–`я` and digits. -/
def _norm_name (s : String) : String :=
  String.mk ((s.data.map pyLowerChar).filter (fun c =>
    isAsciiLower c || pyIsDigit c || ('а' ≤ c && c ≤ 'я')))

/-- Python substring containment `needle in hay` on char lists. -/
def listContainsSub (needle hay : List Char) : Bool :=
  (List.range (hay.length + 1)).any (fun i => (hay.drop i).take needle.length == needle)

/-- The string values of column `j` (cells are already strings, see
`DataFrame`). -/
def colStrs (df : DataFrame) (j : Nat) : List String :=
  df.rows.map (fun r => r.getD j "")

/-- `detect_col` (lines 138–155): exact normalized-name match first, then
substring containment, then the first object-dtype column whose mean cell
string length exceeds 10 (`s.str.len().mean() > 10` with `s` non-empty, i.e.
`10 * count < sum` and `count > 0`). -/
def detect_col (df : DataFrame) (candidates : List String) : Option String :=
  let candNorms := candidates.map _norm_name
  match df.columns.find? (fun c => candNorms.contains (_norm_name c)) with
  | some c => some c
  | none =>
    match df.columns.find? (fun c =>
        candNorms.any (fun key => listContainsSub key.data (_norm_name c).data)) with
    | some c => some c
    | none =>
      (List.range df.columns.length).findSome? (fun j =>
        if df.dtypesObject.getD j false then
          let vals := colStrs df j
          if !vals.isEmpty && 10 * vals.length < (vals.map String.length).sum then
            some (df.columns.getD j "")
          else none
        else none)

/-! ## The matcher (`match_generic`, lines 173–224)

The two scorers `city_match` and `name_match` (each the maximum of
`fuzz.WRatio` and `fuzz.token_set_ratio` from the external `rapidfuzz`
library) are abstract parameters `cm nm : String → String → Nat` returning
scores on the 0–100 integer scale. -/

/-- One recorded hint `(key, best_str, int(score))`. -/
structure Hint where
  key : String
  best : String
  score : Nat
deriving Repr, DecidableEq

/-- One matched output row: the matched reference row's cells together with
the fields added by `row.update({...})`. -/
structure OutRow where
  refRow : List String
  order : Nat
  source_key : String
  name_pdf : String
  city_pdf : String
  matched : String
  score : Nat
deriving Repr, DecidableEq

/-- Python truthiness of an `Optional[str]`: `None` and `""` are falsy. -/
def pyTruthy : Option String → Bool
  | none => false
  | some s => !(s == "")

/-- Cell of a row under a column name (the callers only pass detected column
names, which exist in the frame). -/
def cellVal (df : DataFrame) (row : List String) (c : String) : String :=
  match df.columns.findIdx? (· == c) with
  | some j => row.getD j ""
  | none => ""

/-- `rapidfuzz.process.extractOne(query, choices, scorer=...)` without a
score cutoff: the best-scoring choice together with its score and index;
on ties the earliest choice wins (a later choice replaces the incumbent only
with a strictly greater score); `None` on an empty choice list. -/
def extractOneFrom (scorer : String → String → Nat) (q : String) :
    List String → Nat → Option (String × Nat × Nat)
  | [], _ => none
  | c :: cs, i =>
    let s := scorer q c
    match extractOneFrom scorer q cs (i + 1) with
    | none => some (c, s, i)
    | some (c', s', i') => if s < s' then some (c', s', i') else some (c, s, i)

def rf_extractOne (scorer : String → String → Nat) (q : String)
    (choices : List String) : Option (String × Nat × Nat) :=
  extractOneFrom scorer q choices 0

/-- `candidates_idx` after the optional city narrowing: all row indices, or —
when a city column is configured and the candidate carries a non-empty
city — the indices whose city cell scores at least `CITY_FUZZ`. -/
def candidatesIdx (cm : String → String → Nat) (df : DataFrame)
    (cityCol : Option String) (item : Item) : List Nat :=
  if pyTruthy cityCol && !(item.city == "") then
    (List.range df.rows.length).filter (fun i =>
      CITY_FUZZ ≤ cm item.city (cellVal df (df.rows.getD i []) (cityCol.getD "")))
  else List.range df.rows.length

/-- `narrowed`: the city-narrowed row subset, falling back to the full table
when the narrowing (or the table itself) is empty. -/
def narrowedRows (cm : String → String → Nat) (df : DataFrame)
    (cityCol : Option String) (item : Item) : List (List String) :=
  let n :=
    if pyTruthy cityCol && !(item.city == "") then
      if (candidatesIdx cm df cityCol item).isEmpty then df.rows
      else (candidatesIdx cm df cityCol item).map (fun i => df.rows.getD i [])
    else df.rows
  if n.isEmpty then df.rows else n

/-- `narrowed[ref_col].astype(str).fillna("").tolist()`. -/
def narrowedVals (cm : String → String → Nat) (df : DataFrame)
    (refCol : String) (cityCol : Option String) (item : Item) : List String :=
  (narrowedRows cm df cityCol item).map (fun r => cellVal df r refCol)

/-- The dynamic threshold (line 207):
`NAME_FUZZ_WITH_CITY if (city_col and item.get("city") and len(candidates_idx)) else NAME_FUZZ`. -/
def activeThreshold (cm : String → String → Nat) (df : DataFrame)
    (cityCol : Option String) (item : Item) : Nat :=
  if pyTruthy cityCol && !(item.city == "") &&
      !(candidatesIdx cm df cityCol item).isEmpty then
    NAME_FUZZ_WITH_CITY
  else NAME_FUZZ

/-- The body of the per-candidate loop of `match_generic`: the emitted output
row (if any) and the recorded hint (if any).  The candidate's key goes to
`not_found` exactly when no row is emitted. -/
def matchStep (cm nm : String → String → Nat) (df : DataFrame) (refCol : String)
    (cityCol : Option String) (order : Nat) (item : Item) :
    Option OutRow × Option Hint :=
  match rf_extractOne nm item.key (narrowedVals cm df refCol cityCol item) with
  | none => (none, none)
  | some (bestStr, score, localIdx) =>
    let hint : Hint := ⟨item.key, bestStr, score⟩
    if activeThreshold cm df cityCol item ≤ score then
      (some ⟨(narrowedRows cm df cityCol item).getD localIdx [], order, item.key,
             item.name, item.city, bestStr, score⟩,
       some hint)
    else (none, some hint)

def matchGenericAux (cm nm : String → String → Nat) (df : DataFrame)
    (refCol : String) (cityCol : Option String) :
    Nat → List Item → List OutRow × List String × List Hint
  | _, [] => ([], [], [])
  | order, item :: rest =>
    let step := matchStep cm nm df refCol cityCol order item
    let r := matchGenericAux cm nm df refCol cityCol (order + 1) rest
    (step.1.toList ++ r.1,
     (match step.1 with
      | some _ => []
      | none => [item.key]) ++ r.2.1,
     step.2.toList ++ r.2.2)

/-- `match_generic` (lines 173–224): per candidate, in order (`enumerate`
starting at 1), either an output row or an unresolved key, plus the hint
stream. -/
def matchGeneric (cm nm : String → String → Nat) (keys : List Item)
    (df : DataFrame) (refCol : String) (cityCol : Option String) :
    List OutRow × List String × List Hint :=
  matchGenericAux cm nm df refCol cityCol 1 keys

/-! ## PDF reading (`read_pdf_lines`, lines 33–42)

The external `PyPDF2` interface is modelled by the input type
`Option (List String)`: `none` is a document `PdfReader` cannot open (the
constructor raises, and `read_pdf_lines` has no exception handler, so the
error propagates), `some pages` is an opened document with one extracted
text per page (`page.extract_text() or ""` — a page without a text layer
contributes `""`). -/

/-- The per-page loop body: split the page text into lines, strip each, keep
the non-empty ones. -/
def pageLines (t : String) : List String :=
  ((splitOnChar '\n' t.data).map String.mk).filterMap (fun raw =>
    let s := pyStripWs raw
    if s == "" then none else some s)

/-- All lines of the document in page order. -/
def pageLinesAll (pages : List String) : List String :=
  pages.foldr (fun t acc => pageLines t ++ acc) []

/-- `read_pdf_lines`: propagates the `PdfReader` failure, otherwise collects
the stripped non-empty lines of all pages. -/
def read_pdf_lines : Option (List String) → Except String (List String)
  | none => Except.error "PdfReadError: could not open document"
  | some pages => Except.ok (pageLinesAll pages)

/-! ## `process_route` (lines 228–285) -/

/-- Python `a or b` on `Optional[str]` values. -/
def pyOrStr (a b : Option String) : Option String :=
  if pyTruthy a then a else b

/-- `used_col = addr_col or name_col`. -/
def usedColOf (df : DataFrame) : Option String :=
  pyOrStr (detect_col df ADDRESS_CANDIDATES) (detect_col df NAME_CANDIDATES)

/-- Python `str(list_of_column_names)`. -/
def pyStrListCore : List String → String
  | [] => ""
  | [c] => "'" ++ c ++ "'"
  | c :: c2 :: cs => "'" ++ c ++ "'" ++ ", " ++ pyStrListCore (c2 :: cs)

def pyStrList (cs : List String) : String := "[" ++ pyStrListCore cs ++ "]"

/-- The `ValueError` message raised when neither an address nor a name column
was detected, enumerating the columns actually present. -/
def noColMsg (cols : List String) : String :=
  "Не нашёл колонку для сопоставления. Добавьте в справочник колонку адреса (address/Адрес) или названия (name/company/odbiorca)." ++
  " Найдены колонки: " ++ pyStrList cols

/-- The separator entry prepended to the hint block in `not_found`. -/
def sepLine : String := "\nВозможные кандидаты:"

/-- One hint line `f"→ {key}  ≈  {best_str}  ({score})"`. -/
def fmtTip (h : Hint) : String :=
  "→ " ++ h.key ++ "  ≈  " ++ h.best ++ "  (" ++ toString h.score ++ ")"

/-- The `tips` list: the hints whose key ended up unresolved, formatted. -/
def tipsOf (hints : List Hint) (notFound : List String) : List String :=
  (hints.filter (fun h => notFound.contains h.key)).map fmtTip

/-- The dict returned by `process_route`. -/
structure Report where
  found_count : Nat
  total_count : Nat
  not_found : List String
  output_file : String
deriving Repr, DecidableEq

/-- `process_route` (lines 228–285).  The CSV write and the column renaming
only affect the file on disk and the frame's column labels, not the returned
counts or lists, and are not modelled beyond the output path; `stamp` stands
for the `datetime.now()` timestamp. -/
def process_route (cm nm : String → String → Nat) (doc : Option (List String))
    (df : DataFrame) (outputDir stamp : String) : Except String Report :=
  match read_pdf_lines doc with
  | Except.error e => Except.error e
  | Except.ok lines =>
    let keys := extract_name_city lines
    let cityCol := detect_col df CITY_CANDIDATES
    if pyTruthy (usedColOf df) then
      let mg := matchGeneric cm nm keys df ((usedColOf df).getD "") cityCol
      let tips := tipsOf mg.2.2 mg.2.1
      Except.ok
        { found_count := mg.1.length
          total_count := keys.length
          not_found := mg.2.1 ++ (if tips.isEmpty then [] else sepLine :: tips)
          output_file := outputDir ++ "/route_" ++ stamp ++ ".csv" }
    else Except.error (noColMsg df.columns)

/-! ## Helper lemmas -/

theorem matchGenericAux_partition (cm nm : String → String → Nat) (df : DataFrame)
    (refCol : String) (cityCol : Option String) :
    ∀ (keys : List Item) (order : Nat),
      (matchGenericAux cm nm df refCol cityCol order keys).1.length +
        (matchGenericAux cm nm df refCol cityCol order keys).2.1.length = keys.length := by
  intro keys
  induction keys with
  | nil => intro order; simp [matchGenericAux]
  | cons item rest ih =>
    intro order
    have h := ih (order + 1)
    cases hs : (matchStep cm nm df refCol cityCol order item).1 <;>
      simp [matchGenericAux, hs] <;> omega

theorem extractOneFrom_some_mem (scorer : String → String → Nat) (q : String) :
    ∀ (choices : List String) (i : Nat) (b : String) (s : Nat) (j : Nat),
      extractOneFrom scorer q choices i = some (b, s, j) →
      b ∈ choices ∧ s = scorer q b := by
  intro choices
  induction choices with
  | nil => intro i b s j h; simp [extractOneFrom] at h
  | cons c cs ih =>
    intro i b s j h
    cases hr : extractOneFrom scorer q cs (i + 1) with
    | none =>
      simp only [extractOneFrom, hr] at h
      simp only [Option.some.injEq, Prod.mk.injEq] at h
      obtain ⟨hb, hs, _⟩ := h
      exact ⟨by simp [← hb], by rw [← hb, ← hs]⟩
    | some t =>
      obtain ⟨c', s', i'⟩ := t
      simp only [extractOneFrom, hr] at h
      split at h
      · simp only [Option.some.injEq, Prod.mk.injEq] at h
        obtain ⟨hb, hs, _⟩ := h
        have := ih (i + 1) c' s' i' hr
        exact ⟨by simp [← hb, this.1], by rw [← hb, ← hs, this.2]⟩
      · simp only [Option.some.injEq, Prod.mk.injEq] at h
        obtain ⟨hb, hs, _⟩ := h
        exact ⟨by simp [← hb], by rw [← hb, ← hs]⟩

theorem extractOneFrom_isSome (scorer : String → String → Nat) (q : String) :
    ∀ (choices : List String) (i : Nat), choices ≠ [] →
      (extractOneFrom scorer q choices i).isSome := by
  intro choices
  cases choices with
  | nil => intro i h; exact absurd rfl h
  | cons c cs =>
    intro i _
    cases hr : extractOneFrom scorer q cs (i + 1) with
    | none => simp [extractOneFrom, hr]
    | some t =>
      obtain ⟨c', s', i'⟩ := t
      simp only [extractOneFrom, hr]
      split <;> simp

theorem narrowedRows_ne_nil (cm : String → String → Nat) (df : DataFrame)
    (cityCol : Option String) (item : Item) (h : df.rows ≠ []) :
    narrowedRows cm df cityCol item ≠ [] := by
  have key : ∀ n : List (List String), (if n.isEmpty then df.rows else n) ≠ [] := by
    intro n
    split
    · exact h
    · rename_i hn
      intro habs
      rw [habs] at hn
      simp at hn
  simp only [narrowedRows]
  apply key

theorem activeThreshold_ge (cm : String → String → Nat) (df : DataFrame)
    (cityCol : Option String) (item : Item) :
    NAME_FUZZ_WITH_CITY ≤ activeThreshold cm df cityCol item := by
  unfold activeThreshold
  split <;> simp [NAME_FUZZ, NAME_FUZZ_WITH_CITY]

/-! ## C1 -/

/-- **C1**: the matcher partitions the candidates: the number of matched
output rows plus the length of the base unresolved list produced by
`match_generic` equals the number of extracted candidates, and at the
`process_route` level `found_count` plus that base length equals
`total_count`. -/
theorem found_plus_notfound_eq_total (cm nm : String → String → Nat)
    (keys : List Item) (df : DataFrame) (refCol : String) (cityCol : Option String) :
    ((matchGeneric cm nm keys df refCol cityCol).1.length +
      (matchGeneric cm nm keys df refCol cityCol).2.1.length = keys.length) ∧
    (∀ (pages : List String) (outputDir stamp : String) (r : Report),
      process_route cm nm (some pages) df outputDir stamp = Except.ok r →
      r.found_count +
        (matchGeneric cm nm (extract_name_city (pageLinesAll pages)) df
          ((usedColOf df).getD "") (detect_col df CITY_CANDIDATES)).2.1.length
        = r.total_count) := by
  constructor
  · exact matchGenericAux_partition cm nm df refCol cityCol keys 1
  · intro pages outputDir stamp r hr
    simp only [process_route, read_pdf_lines] at hr
    split at hr
    · simp only [Except.ok.injEq] at hr
      subst hr
      exact matchGenericAux_partition cm nm df ((usedColOf df).getD "")
        (detect_col df CITY_CANDIDATES) (extract_name_city (pageLinesAll pages)) 1
    · exact absurd hr (by simp)

theorem matchStep_row_fields (cm nm : String → String → Nat) (df : DataFrame)
    (refCol : String) (cityCol : Option String) (order : Nat) (item : Item)
    (row : OutRow) (h : (matchStep cm nm df refCol cityCol order item).1 = some row) :
    row.source_key = item.key ∧ row.city_pdf = item.city ∧
    activeThreshold cm df cityCol item ≤ row.score := by
  cases hx : rf_extractOne nm item.key (narrowedVals cm df refCol cityCol item) with
  | none => simp [matchStep, hx] at h
  | some t =>
    obtain ⟨b, s, j⟩ := t
    simp only [matchStep, hx] at h
    split at h
    · rename_i hthr
      simp only [Option.some.injEq] at h
      subst h
      exact ⟨rfl, rfl, hthr⟩
    · simp at h

theorem matchGenericAux_rows_spec (cm nm : String → String → Nat) (df : DataFrame)
    (refCol : String) (cityCol : Option String) :
    ∀ (keys : List Item) (order : Nat) (row : OutRow),
      row ∈ (matchGenericAux cm nm df refCol cityCol order keys).1 →
      ∃ item ∈ keys, row.source_key = item.key ∧ row.city_pdf = item.city ∧
        activeThreshold cm df cityCol item ≤ row.score := by
  intro keys
  induction keys with
  | nil => intro order row h; simp [matchGenericAux] at h
  | cons item rest ih =>
    intro order row h
    simp only [matchGenericAux, List.mem_append] at h
    cases h with
    | inl hmem =>
      cases hs : (matchStep cm nm df refCol cityCol order item).1 with
      | none => rw [hs] at hmem; simp at hmem
      | some r0 =>
        rw [hs] at hmem
        simp only [Option.toList_some, List.mem_singleton] at hmem
        subst hmem
        exact ⟨item, List.mem_cons_self item rest,
          matchStep_row_fields cm nm df refCol cityCol order item row hs⟩
    | inr hmem =>
      obtain ⟨it, hit, hp⟩ := ih (order + 1) row hmem
      exact ⟨it, List.mem_cons_of_mem item hit, hp⟩

theorem matchGeneric_singleton (cm nm : String → String → Nat) (df : DataFrame)
    (refCol : String) (cityCol : Option String) (item : Item) :
    matchGeneric cm nm [item] df refCol cityCol =
      ((matchStep cm nm df refCol cityCol 1 item).1.toList,
       (match (matchStep cm nm df refCol cityCol 1 item).1 with
        | some _ => []
        | none => [item.key]),
       (matchStep cm nm df refCol cityCol 1 item).2.toList) := by
  simp [matchGeneric, matchGenericAux]

/-! ## Concrete fixtures used by witnesses and counterexamples -/

/-- Zero scorer (stands in for a `city_match` that never fires). -/
def cmZero : String → String → Nat := fun _ _ => 0

/-- Scorer rating everything at the baseline threshold except exact matches. -/
def nmBoundary : String → String → Nat := fun a b => if a == b then 100 else 80

/-- Scorer rating everything strictly below both thresholds. -/
def nmLow : String → String → Nat := fun a b => if a == b then 100 else 7

/-- Exact-match scorer. -/
def cmEq : String → String → Nat := fun a b => if a == b then 100 else 0

/-- Constant scorer at the with-city threshold. -/
def nm74 : String → String → Nat := fun _ _ => 74

/-- `name_match` as the external `rapidfuzz` computes it on the concrete
strings exercised below: any comparison involving an empty string scores 0
(both `fuzz.WRatio` and `fuzz.token_set_ratio` return 0 when either side is
empty), an exact match scores 100, anything else here 0. -/
def nmModel : String → String → Nat :=
  fun a b => if a == "" || b == "" then 0 else if a == b then 100 else 0

def dfOne : DataFrame := ⟨["name"], [true], [["Acme"]]⟩
def dfX : DataFrame := ⟨["name"], [true], [["X"]]⟩
def dfZ : DataFrame := ⟨["name"], [true], [["Zed"]]⟩
def dfT : DataFrame := ⟨["name", "city"], [true, true], [["Acme", "TURKU"]]⟩
def dfBad : DataFrame := ⟨["id", "qty"], [false, false], [["1", "2"]]⟩
def itemFoo : Item := ⟨"Foo", "Foo", ""⟩
def itemT : Item := ⟨"Acme, TURKU", "Acme", "TURKU"⟩
def itemEmpty : Item := ⟨"", "", ""⟩

/-! ## C2 -/

/-- **C2**: a matched row is emitted iff its best score reaches the active
threshold, inclusively: every emitted row scores at least the active
threshold of its candidate; a candidate whose best score equals the active
threshold is accepted; one scoring one point below it is put on the
unresolved list instead. -/
theorem matched_rows_meet_threshold (cm nm : String → String → Nat)
    (keys : List Item) (df : DataFrame) (refCol : String) (cityCol : Option String) :
    (∀ row ∈ (matchGeneric cm nm keys df refCol cityCol).1,
       ∃ item ∈ keys, row.source_key = item.key ∧ row.city_pdf = item.city ∧
         activeThreshold cm df cityCol item ≤ row.score) ∧
    (∀ (item : Item) (b : String) (s j : Nat),
       rf_extractOne nm item.key (narrowedVals cm df refCol cityCol item) = some (b, s, j) →
       ((s = activeThreshold cm df cityCol item →
          (matchGeneric cm nm [item] df refCol cityCol).1.length = 1 ∧
          (matchGeneric cm nm [item] df refCol cityCol).2.1 = []) ∧
        (s + 1 = activeThreshold cm df cityCol item →
          (matchGeneric cm nm [item] df refCol cityCol).1 = [] ∧
          (matchGeneric cm nm [item] df refCol cityCol).2.1 = [item.key]))) := by
  constructor
  · intro row hrow
    exact matchGenericAux_rows_spec cm nm df refCol cityCol keys 1 row hrow
  · intro item b s j hx
    constructor
    · intro hs
      have hstep : (matchStep cm nm df refCol cityCol 1 item).1 =
          some ⟨(narrowedRows cm df cityCol item).getD j [], 1, item.key,
                item.name, item.city, b, s⟩ := by
        simp only [matchStep, hx]
        rw [if_pos (le_of_eq hs.symm)]
      rw [matchGeneric_singleton, hstep]
      simp
    · intro hs
      have hstep : (matchStep cm nm df refCol cityCol 1 item).1 = none := by
        simp only [matchStep, hx]
        rw [if_neg (by omega)]
      rw [matchGeneric_singleton, hstep]
      simp

/-- Witness for C2: with a scorer rating the (non-identical) pair exactly at
the baseline threshold 80, the candidate is accepted. -/
theorem matched_rows_meet_threshold_witness :
    (matchGeneric cmZero nmBoundary [itemFoo] dfOne "name" none).1.length = 1 ∧
    (matchGeneric cmZero nmBoundary [itemFoo] dfOne "name" none).2.1 = [] := by
  have h := (matched_rows_meet_threshold cmZero nmBoundary [itemFoo] dfOne "name" none).2
    itemFoo "Acme" 80 0 (by decide)
  exact h.1 (by decide)

/-! ## C3 -/

/-- **C3**: the matcher selects the threshold dynamically — it compares the
best score against `NAME_FUZZ_WITH_CITY = 74` exactly when a city column is
configured (and truthy), the candidate carries a non-empty city, and the
city-narrowing retained at least one reference row; in every other case it
compares against `NAME_FUZZ = 80`. -/
theorem dynamic_threshold_selection (cm nm : String → String → Nat)
    (df : DataFrame) (refCol : String) (cityCol : Option String) (item : Item) :
    ∀ (b : String) (s j : Nat),
      rf_extractOne nm item.key (narrowedVals cm df refCol cityCol item) = some (b, s, j) →
      (((matchGeneric cm nm [item] df refCol cityCol).1 ≠ [] ↔
          activeThreshold cm df cityCol item ≤ s) ∧
       (activeThreshold cm df cityCol item = NAME_FUZZ_WITH_CITY ↔
          (pyTruthy cityCol = true ∧ item.city ≠ "" ∧
           ∃ i, i < df.rows.length ∧
             CITY_FUZZ ≤ cm item.city (cellVal df (df.rows.getD i []) (cityCol.getD "")))) ∧
       (activeThreshold cm df cityCol item = NAME_FUZZ_WITH_CITY ∨
        activeThreshold cm df cityCol item = NAME_FUZZ) ∧
       NAME_FUZZ_WITH_CITY = 74 ∧ NAME_FUZZ = 80) := by
  intro b s j hx
  refine ⟨?_, ?_, ?_, rfl, rfl⟩
  · by_cases hthr : activeThreshold cm df cityCol item ≤ s
    · have hstep : (matchStep cm nm df refCol cityCol 1 item).1 =
          some ⟨(narrowedRows cm df cityCol item).getD j [], 1, item.key,
                item.name, item.city, b, s⟩ := by
        simp only [matchStep, hx]
        rw [if_pos hthr]
      rw [matchGeneric_singleton, hstep]
      simp [hthr]
    · have hstep : (matchStep cm nm df refCol cityCol 1 item).1 = none := by
        simp only [matchStep, hx]
        rw [if_neg hthr]
      rw [matchGeneric_singleton, hstep]
      simp [hthr]
  · unfold activeThreshold
    constructor
    · intro h74
      have hcond : (pyTruthy cityCol && !(item.city == "") &&
          !(candidatesIdx cm df cityCol item).isEmpty) = true := by
        by_contra hc
        rw [if_neg (by simpa using hc)] at h74
        simp [NAME_FUZZ, NAME_FUZZ_WITH_CITY] at h74
      simp only [Bool.and_eq_true, Bool.not_eq_true'] at hcond
      obtain ⟨⟨hA, hB⟩, hC⟩ := hcond
      have hidx : candidatesIdx cm df cityCol item ≠ [] := by
        intro habs
        rw [habs] at hC
        simp at hC
      rw [candidatesIdx, if_pos (by simp [hA, hB])] at hidx
      obtain ⟨i, hi⟩ := List.exists_mem_of_ne_nil _ hidx
      rw [List.mem_filter, List.mem_range] at hi
      refine ⟨hA, by simpa using hB, i, hi.1, by simpa using hi.2⟩
    · rintro ⟨hA, hB, i, hi, hp⟩
      have hB' : (!(item.city == "")) = true := by simpa using hB
      have hidx : i ∈ candidatesIdx cm df cityCol item := by
        rw [candidatesIdx, if_pos (by simp [hA, hB'])]
        rw [List.mem_filter, List.mem_range]
        exact ⟨hi, by simpa using hp⟩
      have hC : (!(candidatesIdx cm df cityCol item).isEmpty) = true := by
        cases hcl : candidatesIdx cm df cityCol item with
        | nil => rw [hcl] at hidx; simp at hidx
        | cons a l => simp
      rw [if_pos (by simp [hA, hB', hC])]
  · unfold activeThreshold
    split
    · left; rfl
    · right; rfl

/-- Witness for C3: with a configured truthy city column, a non-empty
candidate city and a successful narrowing, the lower threshold 74 is active
and a best score of exactly 74 is accepted. -/
theorem dynamic_threshold_selection_witness :
    (matchGeneric cmEq nm74 [itemT] dfT "name" (some "city")).1 ≠ [] ∧
    activeThreshold cmEq dfT (some "city") itemT = NAME_FUZZ_WITH_CITY := by
  have h := dynamic_threshold_selection cmEq nm74 dfT "name" (some "city") itemT
    "Acme" 74 0 (by decide)
  refine ⟨h.1.mpr (by decide), ?_⟩
  exact h.2.1.mpr ⟨by decide, by decide, 0, by decide, by decide⟩

/-! ## C4 -/

/-- **C4 counterexample**: a candidate with an empty match key is *not*
handled without a similarity computation: running the matcher on it over a
one-row table records a best-score hint `("", "X", 0)` — the result of the
similarity computation the claim says never happens (the scorer here returns
0 for any comparison with an empty string, exactly as `rapidfuzz` does). -/
theorem empty_key_scored_counterexample :
    (matchGeneric cmZero nmModel [itemEmpty] dfX "name" none).2.1 = [""] ∧
    (matchGeneric cmZero nmModel [itemEmpty] dfX "name" none).2.2 =
      [Hint.mk "" "X" 0] := by decide

/-- **C4 amended**: a candidate whose match key is empty or whitespace-only
goes through the ordinary scoring path.  Whenever the scorer rates every
comparison with that key below `NAME_FUZZ_WITH_CITY` (as the actual
`rapidfuzz` scorers do for empty strings), the candidate yields no matched
row and lands on the unresolved list — but over a non-empty reference table
a similarity computation still happens and leaves a hint. -/
theorem empty_key_unresolved_amended (cm nm : String → String → Nat)
    (df : DataFrame) (refCol : String) (cityCol : Option String) (item : Item)
    (hkey : item.key.data.all pyIsSpace = true)
    (hnm : ∀ v, nm item.key v < NAME_FUZZ_WITH_CITY) :
    (matchGeneric cm nm [item] df refCol cityCol).1 = [] ∧
    (matchGeneric cm nm [item] df refCol cityCol).2.1 = [item.key] ∧
    (df.rows ≠ [] → (matchGeneric cm nm [item] df refCol cityCol).2.2 ≠ []) := by
  cases hx : rf_extractOne nm item.key (narrowedVals cm df refCol cityCol item) with
  | none =>
    have hstep : matchStep cm nm df refCol cityCol 1 item = (none, none) := by
      simp [matchStep, hx]
    rw [matchGeneric_singleton, hstep]
    refine ⟨rfl, rfl, ?_⟩
    intro hrows
    exfalso
    have hvals : narrowedVals cm df refCol cityCol item ≠ [] := by
      unfold narrowedVals
      simp only [ne_eq, List.map_eq_nil_iff]
      exact narrowedRows_ne_nil cm df cityCol item hrows
    have := extractOneFrom_isSome nm item.key
      (narrowedVals cm df refCol cityCol item) 0 hvals
    rw [rf_extractOne] at hx
    rw [hx] at this
    simp at this
  | some t =>
    obtain ⟨b, s, j⟩ := t
    have hmem := extractOneFrom_some_mem nm item.key
      (narrowedVals cm df refCol cityCol item) 0 b s j hx
    have hlow : s < activeThreshold cm df cityCol item := by
      have h1 := hnm b
      have h2 := activeThreshold_ge cm df cityCol item
      rw [hmem.2]
      omega
    have hstep : matchStep cm nm df refCol cityCol 1 item =
        (none, some ⟨item.key, b, s⟩) := by
      simp only [matchStep, hx]
      rw [if_neg (by omega)]
    rw [matchGeneric_singleton, hstep]
    refine ⟨rfl, rfl, ?_⟩
    intro _
    simp

/-- Witness for the amended C4: the empty-key candidate over a one-row table
is unresolved, and a hint was recorded nonetheless. -/
theorem empty_key_unresolved_amended_witness :
    (matchGeneric cmZero nmModel [itemEmpty] dfZ "name" none).1 = [] ∧
    (matchGeneric cmZero nmModel [itemEmpty] dfZ "name" none).2.1 = [itemEmpty.key] ∧
    (dfZ.rows ≠ [] → (matchGeneric cmZero nmModel [itemEmpty] dfZ "name" none).2.2 ≠ []) :=
  empty_key_unresolved_amended cmZero nmModel dfZ "name" none itemEmpty
    (by decide) (fun v => by simp [nmModel, itemEmpty, NAME_FUZZ_WITH_CITY])

/-! ## C5 -/

theorem pageLines_empty : pageLines "" = [] := by decide

theorem pageLinesAll_empty (pages : List String) (hp : ∀ t ∈ pages, t = "") :
    pageLinesAll pages = [] := by
  induction pages with
  | nil => rfl
  | cons t ts ih =>
    have ht : t = "" := hp t (by simp)
    have hts : pageLinesAll ts = [] := ih (fun u hu => hp u (by simp [hu]))
    show pageLines t ++ pageLinesAll ts = []
    rw [ht, hts, pageLines_empty]
    rfl

theorem addrFindAll_nil : addrFindAll [] = [] := rfl

theorem extract_name_city_nil : extract_name_city [] = [] := by
  unfold extract_name_city
  rw [show nameCityWalk [] [] = [] from rfl]
  have hdata : (joinStr "\n" ([] : List String)).data = [] := rfl
  simp [hdata, addrFindAll_nil]

/-- **C5 counterexample**: an unopenable document does *not* make the
extractor return an empty sequence — `PdfReader` raises and `read_pdf_lines`
has no handler, so both the extractor and the whole pipeline propagate the
error instead of reporting zero counts. -/
theorem unopenable_pdf_error_counterexample :
    read_pdf_lines none = Except.error "PdfReadError: could not open document" ∧
    process_route cmZero nmLow none dfZ "out" "s" =
      Except.error "PdfReadError: could not open document" := ⟨rfl, rfl⟩

/-- **C5 amended**: for a document that *opens* but has no extractable text
layer (every page extracts to the empty string), the extractor returns the
empty line sequence — not an error — and, provided the reference table has a
usable match column, the pipeline reports `total_count = 0`,
`found_count = 0` and an empty unresolved list. -/
theorem empty_text_layer_reports_zero (cm nm : String → String → Nat)
    (pages : List String) (df : DataFrame) (outputDir stamp : String)
    (hp : ∀ t ∈ pages, t = "")
    (hc : pyTruthy (usedColOf df) = true) :
    read_pdf_lines (some pages) = Except.ok [] ∧
    process_route cm nm (some pages) df outputDir stamp =
      Except.ok ⟨0, 0, [], outputDir ++ "/route_" ++ stamp ++ ".csv"⟩ := by
  have hlines := pageLinesAll_empty pages hp
  constructor
  · show Except.ok (pageLinesAll pages) = _
    rw [hlines]
  · simp only [process_route, read_pdf_lines, hlines, extract_name_city_nil]
    rw [if_pos hc]
    rfl

/-- Witness for the amended C5: two pages with empty text layers. -/
theorem empty_text_layer_reports_zero_witness :
    read_pdf_lines (some ["", ""]) = Except.ok [] ∧
    process_route cmZero nmLow (some ["", ""]) dfZ "out" "s" =
      Except.ok ⟨0, 0, [], "out" ++ "/route_" ++ "s" ++ ".csv"⟩ :=
  empty_text_layer_reports_zero cmZero nmLow ["", ""] dfZ "out" "s"
    (by decide) (by decide)

/-! ## C6 -/

theorem string_data_append (s t : String) : (s ++ t).data = s.data ++ t.data := rfl

theorem infix_append_left {α : Type} {l₁ l₂ : List α} (l₃ : List α)
    (h : l₁ <:+: l₂) : l₁ <:+: l₃ ++ l₂ := by
  obtain ⟨s, t, rfl⟩ := h
  exact ⟨l₃ ++ s, t, by simp⟩

theorem infix_append_right {α : Type} {l₁ l₂ : List α} (l₃ : List α)
    (h : l₁ <:+: l₂) : l₁ <:+: l₂ ++ l₃ := by
  obtain ⟨s, t, rfl⟩ := h
  exact ⟨s, t ++ l₃, by simp⟩

theorem mem_infix_pyStrListCore :
    ∀ (cols : List String) (c : String), c ∈ cols →
      c.data <:+: (pyStrListCore cols).data := by
  intro cols
  induction cols with
  | nil => intro c hc; simp at hc
  | cons a rest ih =>
    intro c hc
    cases rest with
    | nil =>
      have : c = a := by simpa using hc
      subst this
      show c.data <:+: ("'" ++ c ++ "'").data
      rw [string_data_append, string_data_append]
      exact ⟨"'".data, "'".data, rfl⟩
    | cons a2 rest2 =>
      rcases List.mem_cons.mp hc with h | h
      · subst h
        show c.data <:+: ("'" ++ c ++ "'" ++ ", " ++ pyStrListCore (a2 :: rest2)).data
        rw [string_data_append, string_data_append, string_data_append]
        refine ⟨"'".data, "'".data ++ ", ".data ++ (pyStrListCore (a2 :: rest2)).data, ?_⟩
        simp [List.append_assoc]
      · have hrec := ih c h
        show c.data <:+: ("'" ++ a ++ "'" ++ ", " ++ pyStrListCore (a2 :: rest2)).data
        rw [string_data_append]
        exact infix_append_left _ hrec

theorem pyStrList_data (cs : List String) :
    (pyStrList cs).data = "[".data ++ (pyStrListCore cs).data ++ "]".data := by
  unfold pyStrList
  rw [string_data_append, string_data_append]

theorem mem_infix_noColMsg (cols : List String) (c : String) (hc : c ∈ cols) :
    c.data <:+: (noColMsg cols).data := by
  have hcore := mem_infix_pyStrListCore cols c hc
  unfold noColMsg
  rw [string_data_append, pyStrList_data]
  exact infix_append_left _ (infix_append_right _ (infix_append_left _ hcore))

/-- **C6**: when neither an address column nor a name column can be detected,
`process_route` fails with the descriptive error, whose text contains every
column name actually present in the table. -/
theorem missing_columns_error (cm nm : String → String → Nat)
    (pages : List String) (df : DataFrame) (outputDir stamp : String)
    (ha : detect_col df ADDRESS_CANDIDATES = none)
    (hn : detect_col df NAME_CANDIDATES = none) :
    process_route cm nm (some pages) df outputDir stamp =
      Except.error (noColMsg df.columns) ∧
    ∀ c ∈ df.columns, c.data <:+: (noColMsg df.columns).data := by
  have hused : usedColOf df = none := by
    unfold usedColOf pyOrStr
    rw [ha, hn]
    rfl
  constructor
  · simp only [process_route, read_pdf_lines, hused]
    rfl
  · intro c hc
    exact mem_infix_noColMsg df.columns c hc

/-- Witness for C6: a table with columns `id`, `qty` (numeric dtypes, short
strings) triggers the error, and both column names occur in the message. -/
theorem missing_columns_error_witness :
    process_route cmZero nmLow (some ["x"]) dfBad "out" "s" =
      Except.error (noColMsg dfBad.columns) ∧
    ∀ c ∈ dfBad.columns, c.data <:+: (noColMsg dfBad.columns).data :=
  missing_columns_error cmZero nmLow ["x"] dfBad "out" "s" (by decide) (by decide)

/-! ## C7 -/

/-- **C7**: parsing `["Acme Oy", "TURKU", "Globex AB", "RAISIO"]` with the
name+city strategy yields exactly the two candidates
`{name: "Acme Oy", city: "TURKU"}` and `{name: "Globex AB", city: "RAISIO"}`,
in that order. -/
theorem acme_globex_scenario :
    extract_name_city ["Acme Oy", "TURKU", "Globex AB", "RAISIO"] =
      [Item.mk "Acme Oy, TURKU" "Acme Oy" "TURKU",
       Item.mk "Globex AB, RAISIO" "Globex AB" "RAISIO"] := by decide

/-! ## C8 -/

/-- **C8**: if some column's normalized name equals a normalized candidate
name, `detect_col` returns such a column — the exact-match rule fires before
the substring rule and the mean-length heuristic, so the returned column is
itself an exact match. -/
theorem detect_col_exact_match_priority (df : DataFrame) (candidates : List String)
    (h : ∃ c ∈ df.columns, _norm_name c ∈ candidates.map _norm_name) :
    ∃ c, detect_col df candidates = some c ∧ c ∈ df.columns ∧
      _norm_name c ∈ candidates.map _norm_name := by
  have hfind : (df.columns.find? (fun c =>
      (candidates.map _norm_name).contains (_norm_name c))).isSome := by
    rw [List.find?_isSome]
    obtain ⟨c, hc, hmem⟩ := h
    exact ⟨c, hc, by simpa using hmem⟩
  obtain ⟨c, hc⟩ := Option.isSome_iff_exists.mp hfind
  refine ⟨c, ?_, List.mem_of_find?_eq_some hc, ?_⟩
  · simp only [detect_col]
    rw [hc]
  · have := List.find?_some hc
    simpa using this

def dfName : DataFrame := ⟨["Name"], [true], [["x"]]⟩

/-- Witness for C8: column `Name` normalizes to `name`, an exact candidate. -/
theorem detect_col_exact_match_priority_witness :
    ∃ c, detect_col dfName NAME_CANDIDATES = some c ∧ c ∈ dfName.columns ∧
      _norm_name c ∈ NAME_CANDIDATES.map _norm_name :=
  detect_col_exact_match_priority dfName NAME_CANDIDATES
    ⟨"Name", by decide, by decide⟩

/-! ## C9 -/

theorem addrFindAllFuel_no_backslash :
    ∀ (fuel : Nat) (cs : List Char), '\\' ∉ cs → addrFindAllFuel fuel cs = [] := by
  intro fuel
  induction fuel with
  | zero => intro cs _; rfl
  | succ fuel ih =>
    intro cs hmem
    cases cs with
    | nil => rfl
    | cons c cs' =>
      have hc : c ≠ '\\' := fun h => hmem (h ▸ List.mem_cons_self c cs')
      have hnone : addrMatchAt (c :: cs') = none := by
        rw [addrMatchAt.eq_def]
        split <;> simp_all
      simp only [addrFindAllFuel, hnone]
      exact ih cs' (fun h => hmem (List.mem_cons_of_mem c h))

theorem addrFindAll_no_backslash (cs : List Char) (h : '\\' ∉ cs) :
    addrFindAll cs = [] :=
  addrFindAllFuel_no_backslash cs.length cs h

/-- **C9**: the fallback pattern `ADDR_RE` — compiled from a raw string with
doubled backslashes — only matches text containing a literal backslash, so on
a line list whose joined text has no backslash, a name+city walk that produced
zero records makes `extract_name_city` return the empty list. -/
theorem addr_re_requires_backslash :
    (∀ cs : List Char, addrFindAll cs ≠ [] → '\\' ∈ cs) ∧
    (∀ lines : List String, nameCityWalk lines [] = [] →
      '\\' ∉ (joinStr "\n" lines).data →
      extract_name_city lines = []) := by
  constructor
  · intro cs hne
    by_contra hmem
    exact hne (addrFindAll_no_backslash cs hmem)
  · intro lines hwalk hnb
    unfold extract_name_city
    rw [hwalk]
    simp [addrFindAll_no_backslash _ hnb]

/-- Witness for C9: two all-digit lines are both classified as noise, the
walk yields nothing, and since the text has no backslash the result is empty. -/
theorem addr_re_requires_backslash_witness :
    extract_name_city ["123", "456"] = [] :=
  addr_re_requires_backslash.2 ["123", "456"] (by decide) (by decide)

/-! ## C10

The helper lemmas establish two shape invariants separating extracted
candidate keys from the entries the hint block appends to `not_found`:
a normalized key contains no newline and no two adjacent whitespace
characters, while the separator contains a newline and every formatted tip
contains the doubled spaces around `≈`. -/

theorem mem_of_mem_dropWhile {p : Char → Bool} :
    ∀ {l : List Char} {a : Char}, a ∈ l.dropWhile p → a ∈ l := by
  intro l
  induction l with
  | nil => intro a h; simp at h
  | cons c cs ih =>
    intro a h
    rw [List.dropWhile_cons] at h
    split at h
    · exact List.mem_cons_of_mem c (ih h)
    · exact h

theorem mem_of_mem_stripWhile {p : Char → Bool} {l : List Char} {a : Char}
    (h : a ∈ stripWhile p l) : a ∈ l := by
  unfold stripWhile at h
  rw [List.mem_reverse] at h
  have h1 := mem_of_mem_dropWhile h
  rw [List.mem_reverse] at h1
  exact mem_of_mem_dropWhile h1

theorem dropWhile_suffix (p : Char → Bool) (l : List Char) : l.dropWhile p <:+ l := by
  induction l with
  | nil => simp
  | cons c cs ih =>
    rw [List.dropWhile_cons]
    split
    · exact ih.trans (List.suffix_cons c cs)
    · exact List.suffix_refl _

theorem stripWhile_isInfixOf (p : Char → Bool) (l : List Char) : stripWhile p l <:+: l := by
  unfold stripWhile
  have h1 : l.dropWhile p <:+ l := dropWhile_suffix p l
  have h2 : (l.dropWhile p).reverse.dropWhile p <:+ (l.dropWhile p).reverse :=
    dropWhile_suffix p _
  have h3 : ((l.dropWhile p).reverse.dropWhile p).reverse <+: l.dropWhile p := by
    have := List.reverse_prefix.mpr h2
    simpa using this
  exact h3.isInfix.trans h1.isInfix

/-- Two adjacent whitespace characters occur somewhere in the list. -/
def hasWsPair : List Char → Bool
  | c1 :: c2 :: r => (pyIsSpace c1 && pyIsSpace c2) || hasWsPair (c2 :: r)
  | _ => false

theorem hasWsPair_cons_false {c : Char} {l : List Char} (hc : pyIsSpace c = false)
    (hl : hasWsPair l = false) : hasWsPair (c :: l) = false := by
  cases l with
  | nil => rfl
  | cons d r => simp [hasWsPair, hc, hl]

theorem hasWsPair_append_right {l : List Char} (ys : List Char)
    (h : hasWsPair l = true) : hasWsPair (l ++ ys) = true := by
  induction l with
  | nil => simp [hasWsPair] at h
  | cons c cs ih =>
    cases cs with
    | nil => simp [hasWsPair] at h
    | cons d r =>
      simp only [hasWsPair, Bool.or_eq_true] at h
      have hsh : (c :: d :: r) ++ ys = c :: d :: (r ++ ys) := by simp
      rw [hsh]
      rcases h with h | h
      · simp [hasWsPair, h]
      · have h2 := ih h
        have hsh2 : (d :: r) ++ ys = d :: (r ++ ys) := by simp
        rw [hsh2] at h2
        simp [hasWsPair, h2]

theorem hasWsPair_append_left (xs : List Char) {l : List Char}
    (h : hasWsPair l = true) : hasWsPair (xs ++ l) = true := by
  induction xs with
  | nil => simpa using h
  | cons x xs ih =>
    cases hxl : xs ++ l with
    | nil =>
      rw [hxl] at ih
      simp [hasWsPair] at ih
    | cons d r =>
      rw [List.cons_append, hxl]
      rw [hxl] at ih
      simp [hasWsPair, ih]

theorem hasWsPair_of_isInfixOf {l₁ l₂ : List Char} (h : l₁ <:+: l₂)
    (hp : hasWsPair l₁ = true) : hasWsPair l₂ = true := by
  obtain ⟨s, t, rfl⟩ := h
  simpa [List.append_assoc] using
    hasWsPair_append_left s (hasWsPair_append_right t hp)

theorem collapseWsAux_shape :
    ∀ (l : List Char),
      (hasWsPair (collapseWsAux false l) = false ∧
       hasWsPair (collapseWsAux true l) = false ∧
       (∀ c r, collapseWsAux true l = c :: r → pyIsSpace c = false) ∧
       (∀ a ∈ collapseWsAux false l, a = ' ' ∨ pyIsSpace a = false) ∧
       (∀ a ∈ collapseWsAux true l, a = ' ' ∨ pyIsSpace a = false)) := by
  intro l
  induction l with
  | nil =>
    refine ⟨rfl, rfl, ?_, ?_, ?_⟩
    · intro c r h; simp [collapseWsAux] at h
    · intro a ha; simp [collapseWsAux] at ha
    · intro a ha; simp [collapseWsAux] at ha
  | cons c cs ih =>
    obtain ⟨ihF, ihT, ihH, ihFm, ihTm⟩ := ih
    by_cases hc : pyIsSpace c = true
    · have eS : collapseWsAux false (c :: cs) = ' ' :: collapseWsAux true cs := by
        simp [collapseWsAux, hc]
      have eT : collapseWsAux true (c :: cs) = collapseWsAux true cs := by
        simp [collapseWsAux, hc]
      refine ⟨?_, ?_, ?_, ?_, ?_⟩
      · rw [eS]
        cases hr : collapseWsAux true cs with
        | nil => rfl
        | cons d r =>
          have hd := ihH d r hr
          rw [hr] at ihT
          simp [hasWsPair, hd, ihT]
      · rw [eT]; exact ihT
      · intro d r h
        rw [eT] at h
        exact ihH d r h
      · intro a ha
        rw [eS] at ha
        rcases List.mem_cons.mp ha with h | h
        · left; exact h
        · exact ihTm a h
      · intro a ha
        rw [eT] at ha
        exact ihTm a ha
    · have hc' : pyIsSpace c = false := by simpa using hc
      have eF : collapseWsAux false (c :: cs) = c :: collapseWsAux false cs := by
        simp [collapseWsAux, hc']
      have eT : collapseWsAux true (c :: cs) = c :: collapseWsAux false cs := by
        simp [collapseWsAux, hc']
      refine ⟨?_, ?_, ?_, ?_, ?_⟩
      · rw [eF]; exact hasWsPair_cons_false hc' ihF
      · rw [eT]; exact hasWsPair_cons_false hc' ihF
      · intro d r h
        rw [eT] at h
        have : c = d := by
          injection h with h1 _
        rw [← this]
        exact hc'
      · intro a ha
        rw [eF] at ha
        rcases List.mem_cons.mp ha with h | h
        · right; rw [h]; exact hc'
        · exact ihFm a h
      · intro a ha
        rw [eT] at ha
        rcases List.mem_cons.mp ha with h | h
        · right; rw [h]; exact hc'
        · exact ihFm a h

theorem normField_no_newline (s : String) : '\n' ∉ (normField s).data := by
  intro hmem
  have h1 : '\n' ∈ collapseWsAll s.data := mem_of_mem_stripWhile hmem
  rcases (collapseWsAux_shape s.data).2.2.2.1 '\n' h1 with h | h
  · exact absurd h (by decide)
  · exact absurd h (by decide)

theorem normField_no_wsPair (s : String) : hasWsPair (normField s).data = false := by
  by_contra hp
  have hp' : hasWsPair (normField s).data = true := by
    cases h : hasWsPair (normField s).data
    · exact absurd h hp
    · rfl
  have h2 := hasWsPair_of_isInfixOf (stripWhile_isInfixOf _ (collapseWsAll s.data)) hp'
  simp only [collapseWsAll] at h2
  rw [(collapseWsAux_shape s.data).1] at h2
  cases h2

theorem extract_key_shape (lines : List String) (it : Item)
    (h : it ∈ extract_name_city lines) :
    '\n' ∉ it.key.data ∧ hasWsPair it.key.data = false := by
  unfold extract_name_city at h
  rw [List.mem_map] at h
  obtain ⟨r, _, heq⟩ := h
  have hkey : it.key = normField r.key := by rw [← heq]
  rw [hkey]
  exact ⟨normField_no_newline r.key, normField_no_wsPair r.key⟩

theorem fmtTip_hasWsPair (h : Hint) : hasWsPair (fmtTip h).data = true := by
  have hmid : hasWsPair ("  ≈  ".data) = true := by decide
  have h1 : hasWsPair ("  ≈  ".data ++
      (h.best ++ "  (" ++ toString h.score ++ ")").data) = true :=
    hasWsPair_append_right _ hmid
  have h2 := hasWsPair_append_left ("→ ".data ++ h.key.data) h1
  have hshape : (fmtTip h).data =
      ("→ ".data ++ h.key.data) ++ ("  ≈  ".data ++
        (h.best ++ "  (" ++ toString h.score ++ ")").data) := by
    unfold fmtTip
    simp only [string_data_append, List.append_assoc]
  rw [hshape]
  exact h2

theorem extras_not_keys (lines : List String) (hints : List Hint) (nf : List String) :
    ∀ e ∈ sepLine :: tipsOf hints nf,
      e ∉ (extract_name_city lines).map Item.key := by
  intro e he hk
  rw [List.mem_map] at hk
  obtain ⟨it, hit, heq⟩ := hk
  have hshape := extract_key_shape lines it hit
  rcases List.mem_cons.mp he with h | h
  · subst h
    apply hshape.1
    rw [heq]
    decide
  · unfold tipsOf at h
    rw [List.mem_map] at h
    obtain ⟨hh, _, htip⟩ := h
    have hpair := fmtTip_hasWsPair hh
    rw [htip, ← heq] at hpair
    rw [hshape.2] at hpair
    cases hpair

/-- **C10**: whenever at least one unresolved candidate has a recorded hint,
the `not_found` list returned by `process_route` is the base unresolved list
with the separator entry and one formatted tip per hint whose key is
unresolved appended after it; its length then strictly exceeds
`total_count - found_count`, and none of the appended entries is a candidate
key. -/
theorem notfound_hint_block_appended (cm nm : String → String → Nat)
    (pages : List String) (df : DataFrame) (outputDir stamp : String)
    (r : Report) (rows : List OutRow) (nf : List String) (hints : List Hint)
    (hmg : matchGeneric cm nm (extract_name_city (pageLinesAll pages)) df
            ((usedColOf df).getD "") (detect_col df CITY_CANDIDATES) = (rows, nf, hints))
    (hr : process_route cm nm (some pages) df outputDir stamp = Except.ok r)
    (hhint : ∃ h ∈ hints, h.key ∈ nf) :
    r.not_found = nf ++ sepLine :: tipsOf hints nf ∧
    tipsOf hints nf ≠ [] ∧
    r.total_count - r.found_count < r.not_found.length ∧
    ∀ e ∈ sepLine :: tipsOf hints nf,
      e ∉ (extract_name_city (pageLinesAll pages)).map Item.key := by
  have htips : tipsOf hints nf ≠ [] := by
    obtain ⟨h0, hh0, hk0⟩ := hhint
    have hm0 : h0 ∈ hints.filter (fun h => nf.contains h.key) :=
      List.mem_filter.mpr ⟨hh0, by simpa using hk0⟩
    unfold tipsOf
    simp only [ne_eq, List.map_eq_nil_iff]
    intro habs
    rw [habs] at hm0
    simp at hm0
  simp only [process_route, read_pdf_lines, hmg] at hr
  split at hr
  · simp only [Except.ok.injEq] at hr
    subst hr
    have hpart := matchGenericAux_partition cm nm df ((usedColOf df).getD "")
      (detect_col df CITY_CANDIDATES) (extract_name_city (pageLinesAll pages)) 1
    rw [show matchGenericAux cm nm df ((usedColOf df).getD "")
        (detect_col df CITY_CANDIDATES) 1 (extract_name_city (pageLinesAll pages)) =
        (rows, nf, hints) from hmg] at hpart
    refine ⟨?_, htips, ?_, extras_not_keys (pageLinesAll pages) hints nf⟩
    · show nf ++ (if (tipsOf hints nf).isEmpty then [] else sepLine :: tipsOf hints nf) = _
      rw [if_neg (by simpa using htips)]
    · show (extract_name_city (pageLinesAll pages)).length - rows.length <
        (nf ++ (if (tipsOf hints nf).isEmpty then [] else sepLine :: tipsOf hints nf)).length
      rw [if_neg (by simpa using htips)]
      simp only [List.length_append, List.length_cons] at hpart ⊢
      omega
  · exact absurd hr (by simp)

def pagesW : List String := ["Acme Oy\nTURKU"]
def nfW : List String := ["Acme Oy, TURKU"]
def hintsW : List Hint := [⟨"Acme Oy, TURKU", "Zed", 7⟩]
def rW : Report :=
  ⟨0, 1, ["Acme Oy, TURKU", sepLine, "→ Acme Oy, TURKU  ≈  Zed  (7)"], "out/route_s.csv"⟩

/-- Witness for C10: one candidate, unresolved with a recorded hint, makes
the returned list `[key, separator, tip]`. -/
theorem notfound_hint_block_appended_witness :
    rW.not_found = nfW ++ sepLine :: tipsOf hintsW nfW ∧
    tipsOf hintsW nfW ≠ [] ∧
    rW.total_count - rW.found_count < rW.not_found.length ∧
    ∀ e ∈ sepLine :: tipsOf hintsW nfW,
      e ∉ (extract_name_city (pageLinesAll pagesW)).map Item.key :=
  notfound_hint_block_appended cmZero nmLow pagesW dfZ "out" "s" rW [] nfW hintsW
    (by decide) (by rfl)
    ⟨⟨"Acme Oy, TURKU", "Zed", 7⟩, by decide, by decide⟩

/-- Witness for C1: for the same one-candidate run, `found_count = 0` plus
one base unresolved key equals `total_count = 1`. -/
theorem found_plus_notfound_eq_total_witness :
    rW.found_count +
      (matchGeneric cmZero nmLow (extract_name_city (pageLinesAll pagesW)) dfZ
        ((usedColOf dfZ).getD "") (detect_col dfZ CITY_CANDIDATES)).2.1.length
      = rW.total_count :=
  (found_plus_notfound_eq_total cmZero nmLow [] dfZ "name" none).2
    pagesW "out" "s" rW (by rfl)

end RouteGen
